import Mathlib

/-!
Shallow embedding of the nightly inventory ledger of `skipbot.py`.

The durable state is the contents of `data/skip_sales.json`
(`sale_date_iso -> {"ATL": [...], "FL": [...]}`) and of
`data/skip_passphrases.json` (`date_iso -> list of phrases`).  Every reader
in the source looks a day up with the default `{"ATL": [], "FL": []}`, so
the sales store is modelled as a total function from `(date, venue)` to the
ordered list of records, with default `[]`; the phrase store keeps its
partiality (`Option`), because `ensure_phrases_for` branches on key absence.

`random.shuffle` is modelled as an explicit `shuffle` parameter, and the
wall clock (`datetime.datetime.now()`) as an explicit `(date, hour)` pair.
-/

namespace SkipBot

/-- One sale record, `{"session": session_id, "user": discord_id}` in
`skipbot.py` (`record_sale`, line 94). -/
structure SaleRec where
  session : String
  user : Nat
deriving DecidableEq, Repr

/-- The two venues, the string keys `"ATL"` and `"FL"` of a day's entry. -/
inductive Loc
  | ATL
  | FL
deriving DecidableEq, Repr

/-- The sales store `skip_sales.json`, as a total map from
`(sale_date_iso, venue)` to the ordered list of records (missing keys read
as `[]`, matching every `.get(key, {"ATL": [], "FL": []})` in the source). -/
abbrev Sales : Type := String → Loc → List SaleRec

/-- The store as first created by the persistence setup: `{}`. -/
def emptySales : Sales := fun _ _ => []

/-- Writing one `(night, venue)` list back, as done by mutating
`day[location]` in place followed by `save_sales(all_sales)`. -/
def updateDay (st : Sales) (key : String) (loc : Loc) (l : List SaleRec) :
    Sales :=
  fun k v => if k = key then (if v = loc then l else st k v) else st k v

/-- Error outcomes of the admin commands.  The source reports these as chat
messages and performs no mutation.  `CapacityExceeded` and `StaleNightHint`
are the spec's names for outcomes the source never produces; they are
included so that theorems can speak about their absence. -/
inductive LedgerError
  | InvalidPosition
  | SameLocation
  | CapacityExceeded
  | StaleNightHint
deriving DecidableEq, Repr

/-- `record_sale(session_id, discord_id, location, sale_date_iso)`
(`skipbot.py` lines 90-96): load the store, take the day's list for
`location`; if `session_id` is not among its `"session"` fields, append
`{"session": session_id, "user": discord_id}` and save; in all cases
return `len(day[location])` as it stands after the optional append.
There is no capacity check on this path, and on the duplicate path the
return value is the current list length, not the stored record's position. -/
def record_sale (st : Sales) (session_id : String) (discord_id : Nat)
    (location : Loc) (sale_date_iso : String) : Nat × Sales :=
  let day := st sale_date_iso location
  if session_id ∈ day.map SaleRec.session then
    (day.length, st)
  else
    ((day ++ [SaleRec.mk session_id discord_id]).length,
     updateDay st sale_date_iso location
       (day ++ [SaleRec.mk session_id discord_id]))

/-- The `checkout.session.completed` branch of `stripe_webhook`
(`skipbot.py` lines 101-124): it reads `discord_id`, `location` and
`sale_date` from the event metadata and calls `record_sale` with the hinted
`sale_date` unconditionally.  The current night (`get_sale_date()`) is
passed here as an argument only to document that the handler never compares
the hint against it. -/
def stripe_webhook_completed (st : Sales) (session_id : String)
    (discord_id : Nat) (location : Loc) (sale_date_hint : String)
    (_current_night : String) : Nat × Sales :=
  record_sale st session_id discord_id location sale_date_hint

/-- The ledger mutation performed by the `/remove_sale` command
(`skipbot.py` lines 269-288), with the night key it computes from
`get_sale_date()` made explicit: if `index < 1 or index > len(entries)`
the command replies "Invalid" and saves nothing; otherwise it runs
`entries.pop(index - 1)` and saves. -/
def remove_sale (st : Sales) (key : String) (location : Loc) (index : Int) :
    Except LedgerError SaleRec × Sales :=
  let entries := st key location
  if index < 1 ∨ (entries.length : Int) < index then
    (Except.error LedgerError.InvalidPosition, st)
  else
    let i := (index - 1).toNat
    (Except.ok (entries.getD i ⟨"", 0⟩),
     updateDay st key location (entries.eraseIdx i))

/-- The ledger mutation performed by the `/move_sale` command (`skipbot.py`
lines 300-322), night key explicit: reject `from_loc == to_loc`; reject an
out-of-range index against the source list; otherwise
`entry = src.pop(index - 1)`, `dst.append(entry)`, save.  There is no
destination-capacity check. -/
def move_sale (st : Sales) (key : String) (from_loc to_loc : Loc)
    (index : Int) : Except LedgerError SaleRec × Sales :=
  if from_loc = to_loc then
    (Except.error LedgerError.SameLocation, st)
  else
    let src := st key from_loc
    let dst := st key to_loc
    if index < 1 ∨ (src.length : Int) < index then
      (Except.error LedgerError.InvalidPosition, st)
    else
      let i := (index - 1).toNat
      let entry := src.getD i ⟨"", 0⟩
      (Except.ok entry,
       updateDay (updateDay st key from_loc (src.eraseIdx i))
         key to_loc (dst ++ [entry]))

/-- `get_sale_date()` (`skipbot.py` lines 42-46).  The local instant
`datetime.datetime.now()` is modelled as its calendar date, given as a day
number so that `d - 1` is the previous calendar date, together with its
local hour.  If the hour is before 1 AM the sale date is the previous
calendar date, otherwise today's. -/
def get_sale_date (date : Int) (hour : Nat) : Int :=
  if hour < 1 then date - 1 else date

/-- The fixed vocabulary `DAILY_PHRASES` (`skipbot.py` lines 29-36). -/
def DAILY_PHRASES : List String :=
  ["Pineapples", "Kinkster", "Certified Freak", "Hot Wife", "Stag Night",
   "Velvet Vixen", "Playroom Pro", "Voyeur Vision", "After Dark",
   "Bare Temptation", "Swing Set", "Sultry Eyes", "Naughty List",
   "Dom Curious", "Unicorn Dust", "Cherry Popper", "Dirty Martini",
   "Lust Lounge", "Midnight Tease", "Fantasy Fuel", "Room 69", "Wet Bar",
   "No Limits", "Satin Sheets", "Wild Card"]

/-- The phrase store `skip_passphrases.json`, a partial map from
`date_iso` to the stored list. -/
abbrev Phrases : Type := String → Option (List String)

/-- The phrase store as first created: `{}`. -/
def emptyPhrases : Phrases := fun _ => none

/-- `ensure_phrases_for(date_iso)` (`skipbot.py` lines 69-76).  `shuffle`
stands for `random.shuffle` acting on the fresh copy `DAILY_PHRASES.copy()`.
If `date_iso` is absent from the pool, store the shuffled copy and save;
return `pool[date_iso]` together with the resulting store. -/
def ensure_phrases_for (shuffle : List String → List String)
    (pool : Phrases) (date_iso : String) : List String × Phrases :=
  match pool date_iso with
  | some l => (l, pool)
  | none =>
      let lst := shuffle DAILY_PHRASES
      (lst, fun k => if k = date_iso then some lst else pool k)

/-- One incoming confirmation, i.e. the arguments of one `record_sale`
call as extracted from a webhook event. -/
structure Call where
  session : String
  user : Nat
  location : Loc
  sale_date : String

/-- Running a sequence of confirmations against the store, each one
applying `record_sale` to the state left by the previous one. -/
def applyCalls (st : Sales) (cs : List Call) : Sales :=
  cs.foldl
    (fun s c => (record_sale s c.session c.user c.location c.sale_date).2) st

/-- Every `(night, venue)` list holds at most one record per session id. -/
def UniqueSessions (st : Sales) : Prop :=
  ∀ k l, ((st k l).map SaleRec.session).Nodup

/-- A day already holding 25 pairwise-distinct sessions. -/
def fullDay : List SaleRec :=
  (List.range 25).map (fun i => SaleRec.mk ("sess" ++ toString i) i)

/-- A store whose ATL list for the night `2025-06-07` is at the advertised
capacity of 25. -/
def fullState : Sales := updateDay emptySales "2025-06-07" Loc.ATL fullDay

/-- `fullState` with one additional FL record, the source of a move whose
destination (ATL) is full. -/
def fullStateFLone : Sales :=
  updateDay fullState "2025-06-07" Loc.FL [SaleRec.mk "x" 7]

/-- State after confirming session `sA`. -/
def c2st1 : Sales := (record_sale emptySales "sA" 1 Loc.ATL "2025-06-07").2

/-- State after confirming `sA` and then `sB`. -/
def c2st2 : Sales := (record_sale c2st1 "sB" 2 Loc.ATL "2025-06-07").2

/-- A store holding the single ATL record `m` for the night `2025-06-07`. -/
def moveOneState : Sales :=
  updateDay emptySales "2025-06-07" Loc.ATL [SaleRec.mk "m" 3]

/-- A store holding one duplicate-candidate ATL record `sA`. -/
def oneState : Sales :=
  updateDay emptySales "2025-06-07" Loc.ATL [SaleRec.mk "sA" 1]

theorem updateDay_same (st : Sales) (key : String) (loc : Loc)
    (l : List SaleRec) : updateDay st key loc l key loc = l := by
  simp [updateDay]

theorem updateDay_other (st : Sales) (key : String) (loc : Loc)
    (l : List SaleRec) (k : String) (v : Loc) (h : k ≠ key ∨ v ≠ loc) :
    updateDay st key loc l k v = st k v := by
  unfold updateDay
  rcases h with h | h
  · simp [h]
  · by_cases hk : k = key <;> simp [hk, h]

theorem record_sale_mem (st : Sales) (s : String) (u : Nat) (loc : Loc)
    (d : String) (h : s ∈ (st d loc).map SaleRec.session) :
    record_sale st s u loc d = ((st d loc).length, st) := by
  simp [record_sale, h]

theorem record_sale_not_mem (st : Sales) (s : String) (u : Nat) (loc : Loc)
    (d : String) (h : s ∉ (st d loc).map SaleRec.session) :
    record_sale st s u loc d =
      ((st d loc).length + 1,
       updateDay st d loc (st d loc ++ [SaleRec.mk s u])) := by
  simp [record_sale, h]

theorem getElem?_eraseIdx_lt {α : Type} (l : List α) (i j : Nat) (h : j < i) :
    (l.eraseIdx i)[j]? = l[j]? := by
  induction l generalizing i j with
  | nil => simp [List.eraseIdx]
  | cons a t ih =>
      cases i with
      | zero => omega
      | succ k =>
          cases j with
          | zero => simp [List.eraseIdx]
          | succ m =>
              simp only [List.eraseIdx, List.getElem?_cons_succ]
              exact ih k m (by omega)

theorem getElem?_eraseIdx_ge {α : Type} (l : List α) (i j : Nat) (h : i ≤ j) :
    (l.eraseIdx i)[j]? = l[j + 1]? := by
  induction l generalizing i j with
  | nil => simp [List.eraseIdx]
  | cons a t ih =>
      cases i with
      | zero => simp [List.eraseIdx]
      | succ k =>
          cases j with
          | zero => omega
          | succ m =>
              simp only [List.eraseIdx, List.getElem?_cons_succ]
              exact ih k m (by omega)

/-- Claim C1: the claim says that once 25 distinct session ids are recorded
for a (night, venue), a further distinct confirmation returns
`CapacityExceeded` and leaves the ledger unchanged.  The code has no
capacity check in `record_sale`: with 25 distinct sessions already stored
for `("2025-06-07", ATL)`, a 26th distinct session is appended, the call
returns position 26, and the list grows to 26 records. -/
theorem record_sale_no_capacity_check :
    fullDay.length = 25 ∧
    (fullDay.map SaleRec.session).Nodup ∧
    (record_sale fullState "sess25" 99 Loc.ATL "2025-06-07").1 = 26 ∧
    ((record_sale fullState "sess25" 99 Loc.ATL "2025-06-07").2
        "2025-06-07" Loc.ATL).length = 26 := by
  decide

/-- Claim C2: the claim says every `record_sale` call for one session id
returns the first call's position, under arbitrary interleaving.  The code
returns `len(day[location])` as it stands at call time: confirming `sA`
(position 1), then `sB`, then replaying `sA` returns 2, not 1, even though
the replay stores nothing new. -/
theorem record_sale_replay_returns_current_count :
    (record_sale emptySales "sA" 1 Loc.ATL "2025-06-07").1 = 1 ∧
    (record_sale c2st2 "sA" 1 Loc.ATL "2025-06-07").1 = 2 ∧
    (record_sale c2st2 "sA" 1 Loc.ATL "2025-06-07").2 "2025-06-07" Loc.ATL =
      c2st2 "2025-06-07" Loc.ATL := by
  decide

/-- Claim C4: the claim says a move whose destination already holds 25
records fails with `CapacityExceeded` and leaves the source untouched.
The code performs no destination-capacity check: moving into a full ATL
succeeds and grows the destination to 26 records. -/
theorem move_sale_no_destination_capacity_check :
    (fullStateFLone "2025-06-07" Loc.ATL).length = 25 ∧
    (move_sale fullStateFLone "2025-06-07" Loc.FL Loc.ATL 1).1 =
      Except.ok (SaleRec.mk "x" 7) ∧
    ((move_sale fullStateFLone "2025-06-07" Loc.FL Loc.ATL 1).2
        "2025-06-07" Loc.ATL).length = 26 :=
  ⟨by decide, rfl, by decide⟩

/-- Claim C5: the claim says an event whose night hint is inconsistent with
the resolver output is rejected with `StaleNightHint` and no sale is
recorded.  The webhook handler never compares the hint with
`get_sale_date()`: an event hinting `2020-01-01` while the current night is
`2025-06-07` is recorded under the stale hint, and nothing is recorded
under the current night. -/
theorem stripe_webhook_accepts_stale_hint :
    (stripe_webhook_completed emptySales "s1" 5 Loc.ATL "2020-01-01"
        "2025-06-07").1 = 1 ∧
    (stripe_webhook_completed emptySales "s1" 5 Loc.ATL "2020-01-01"
        "2025-06-07").2 "2020-01-01" Loc.ATL = [SaleRec.mk "s1" 5] ∧
    (stripe_webhook_completed emptySales "s1" 5 Loc.ATL "2020-01-01"
        "2025-06-07").2 "2025-06-07" Loc.ATL = [] := by
  decide

/-- Claim C8: with cutover hour 1 AM, an instant whose local hour is 0
resolves to the previous calendar date, and an instant whose local hour is
1 or later resolves to its own calendar date. -/
theorem get_sale_date_cutover (d : Int) (h : Nat) :
    (h = 0 → get_sale_date d h = d - 1) ∧ (1 ≤ h → get_sale_date d h = d) := by
  constructor
  · intro h0
    subst h0
    simp [get_sale_date]
  · intro h1
    unfold get_sale_date
    rw [if_neg (by omega)]

/-- Witness for C8 at hours 0 and 1 of day 100. -/
theorem get_sale_date_cutover_witness :
    get_sale_date 100 0 = 100 - 1 ∧ get_sale_date 100 1 = 100 :=
  ⟨(get_sale_date_cutover 100 0).1 rfl, (get_sale_date_cutover 100 1).2 (by decide)⟩

/-- Claim C10: `record_sale` modifies at most the single
`(sale_date, location)` list: every other night's entry and the other
venue's list for the same night read unchanged, and when the session id is
already present the durable store is not written at all (the returned state
is the input state). -/
theorem record_sale_frame (st : Sales) (s : String) (u : Nat) (loc : Loc)
    (d : String) :
    (∀ k v, k ≠ d ∨ v ≠ loc →
      (record_sale st s u loc d).2 k v = st k v) ∧
    (s ∈ (st d loc).map SaleRec.session → (record_sale st s u loc d).2 = st) := by
  constructor
  · intro k v hkv
    by_cases hmem : s ∈ (st d loc).map SaleRec.session
    · rw [record_sale_mem st s u loc d hmem]
    · rw [record_sale_not_mem st s u loc d hmem]
      exact updateDay_other st d loc _ k v hkv
  · intro hmem
    rw [record_sale_mem st s u loc d hmem]

/-- Witness for C10: a duplicate confirmation of `sA` leaves the store
identical, and a foreign (night, venue) cell reads unchanged. -/
theorem record_sale_frame_witness :
    (record_sale oneState "sA" 1 Loc.ATL "2025-06-07").2 "2024-01-01" Loc.FL =
      oneState "2024-01-01" Loc.FL ∧
    (record_sale oneState "sA" 1 Loc.ATL "2025-06-07").2 = oneState :=
  ⟨(record_sale_frame oneState "sA" 1 Loc.ATL "2025-06-07").1 "2024-01-01"
      Loc.FL (Or.inl (by decide)),
   (record_sale_frame oneState "sA" 1 Loc.ATL "2025-06-07").2 (by decide)⟩

theorem record_sale_preserves_unique (st : Sales) (s : String) (u : Nat)
    (loc : Loc) (d : String) (h : UniqueSessions st) :
    UniqueSessions (record_sale st s u loc d).2 := by
  by_cases hmem : s ∈ (st d loc).map SaleRec.session
  · rw [record_sale_mem st s u loc d hmem]
    exact h
  · rw [record_sale_not_mem st s u loc d hmem]
    intro k v
    dsimp only
    by_cases hkv : k = d ∧ v = loc
    · obtain ⟨hk, hv⟩ := hkv
      rw [hk, hv, updateDay_same]
      simp only [List.map_append, List.map_cons, List.map_nil]
      rw [← List.concat_eq_append]
      exact List.Nodup.concat hmem (h d loc)
    · rw [updateDay_other st d loc _ k v (not_and_or.mp hkv)]
      exact h k v

/-- Claim C3: starting from a store whose (night, venue) lists contain no
duplicate session ids, any sequence of `record_sale` calls preserves the
invariant that each (night, venue) list holds at most one record per
session id: a call whose session id already occurs in the targeted list
appends nothing. -/
theorem record_sale_sessions_nodup_invariant (st : Sales) (cs : List Call)
    (h : UniqueSessions st) : UniqueSessions (applyCalls st cs) := by
  induction cs generalizing st with
  | nil => exact h
  | cons c cs ih =>
      exact ih _
        (record_sale_preserves_unique st c.session c.user c.location
          c.sale_date h)

/-- Witness for C3: replaying `sA` around an interleaved `sB` still leaves
every list duplicate-free. -/
theorem record_sale_sessions_nodup_invariant_witness :
    UniqueSessions (applyCalls emptySales
      [Call.mk "sA" 1 Loc.ATL "2025-06-07",
       Call.mk "sB" 2 Loc.ATL "2025-06-07",
       Call.mk "sA" 1 Loc.ATL "2025-06-07"]) :=
  record_sale_sessions_nodup_invariant emptySales _
    (fun _ _ => List.nodup_nil)

/-- Claim C6: for a (night, venue) list of length `n`, `/remove_sale` with
`1 ≤ position ≤ n` removes and returns the record at that position, records
before it keep their position, and every record formerly at a position
`q > position` moves to `q - 1`; with `position < 1` or `position > n` it
fails with `InvalidPosition` and the store is unchanged.  (Positions are
1-based; index `(position - 1).toNat` is the 0-based one.) -/
theorem remove_sale_spec (st : Sales) (key : String) (loc : Loc)
    (index : Int) :
    (1 ≤ index → index ≤ ((st key loc).length : Int) →
      ∃ r, (st key loc)[(index - 1).toNat]? = some r ∧
        (remove_sale st key loc index).1 = Except.ok r ∧
        ((remove_sale st key loc index).2 key loc).length + 1 =
          (st key loc).length ∧
        (∀ j : Nat, j < (index - 1).toNat →
          ((remove_sale st key loc index).2 key loc)[j]? =
            (st key loc)[j]?) ∧
        (∀ j : Nat, (index - 1).toNat ≤ j →
          ((remove_sale st key loc index).2 key loc)[j]? =
            (st key loc)[j + 1]?)) ∧
    (index < 1 ∨ ((st key loc).length : Int) < index →
      remove_sale st key loc index =
        (Except.error LedgerError.InvalidPosition, st)) := by
  constructor
  · intro h1 h2
    have hcond : ¬(index < 1 ∨ ((st key loc).length : Int) < index) := by
      omega
    have hi : (index - 1).toNat < (st key loc).length := by omega
    refine ⟨(st key loc).getD (index - 1).toNat ⟨"", 0⟩, ?_, ?_, ?_, ?_, ?_⟩
    · rw [List.getD_eq_getElem _ _ hi]
      exact List.getElem?_eq_getElem hi
    · simp only [remove_sale, if_neg hcond]
    · simp only [remove_sale, if_neg hcond]
      rw [updateDay_same]
      exact List.length_eraseIdx_add_one hi
    · intro j hj
      simp only [remove_sale, if_neg hcond]
      rw [updateDay_same]
      exact getElem?_eraseIdx_lt _ _ _ hj
    · intro j hj
      simp only [remove_sale, if_neg hcond]
      rw [updateDay_same]
      exact getElem?_eraseIdx_ge _ _ _ hj
  · intro h
    simp only [remove_sale, if_pos h]

/-- A store holding the three ATL records `a`, `b`, `c`. -/
def threeState : Sales :=
  updateDay emptySales "2025-06-07" Loc.ATL
    [SaleRec.mk "a" 1, SaleRec.mk "b" 2, SaleRec.mk "c" 3]

/-- Witness for C6: removing position 2 of a three-record list, and the
out-of-range position 5. -/
theorem remove_sale_spec_witness :
    (∃ r, (threeState "2025-06-07" Loc.ATL)[((2 : Int) - 1).toNat]? =
        some r ∧
      (remove_sale threeState "2025-06-07" Loc.ATL 2).1 = Except.ok r ∧
      ((remove_sale threeState "2025-06-07" Loc.ATL 2).2 "2025-06-07"
          Loc.ATL).length + 1 = (threeState "2025-06-07" Loc.ATL).length ∧
      (∀ j : Nat, j < ((2 : Int) - 1).toNat →
        ((remove_sale threeState "2025-06-07" Loc.ATL 2).2 "2025-06-07"
            Loc.ATL)[j]? = (threeState "2025-06-07" Loc.ATL)[j]?) ∧
      (∀ j : Nat, ((2 : Int) - 1).toNat ≤ j →
        ((remove_sale threeState "2025-06-07" Loc.ATL 2).2 "2025-06-07"
            Loc.ATL)[j]? = (threeState "2025-06-07" Loc.ATL)[j + 1]?)) ∧
    remove_sale threeState "2025-06-07" Loc.ATL 5 =
      (Except.error LedgerError.InvalidPosition, threeState) :=
  ⟨(remove_sale_spec threeState "2025-06-07" Loc.ATL 2).1 (by decide)
      (by decide),
   (remove_sale_spec threeState "2025-06-07" Loc.ATL 5).2 (by decide)⟩

/-- Claim C7: a successful move between distinct venues removes the record
at the given source position, shrinks the source list by exactly one,
and appends exactly that record at the end of the destination list (so the
destination count grows by exactly one). -/
theorem move_sale_success_spec (st : Sales) (key : String) (A B : Loc)
    (index : Int) (hAB : A ≠ B) (h1 : 1 ≤ index)
    (h2 : index ≤ ((st key A).length : Int)) :
    ∃ r, (st key A)[(index - 1).toNat]? = some r ∧
      (move_sale st key A B index).1 = Except.ok r ∧
      ((move_sale st key A B index).2 key A).length + 1 =
        (st key A).length ∧
      (move_sale st key A B index).2 key B = st key B ++ [r] := by
  have hcond : ¬(index < 1 ∨ ((st key A).length : Int) < index) := by omega
  have hi : (index - 1).toNat < (st key A).length := by omega
  refine ⟨(st key A).getD (index - 1).toNat ⟨"", 0⟩, ?_, ?_, ?_, ?_⟩
  · rw [List.getD_eq_getElem _ _ hi]
    exact List.getElem?_eq_getElem hi
  · simp only [move_sale, if_neg hAB, if_neg hcond]
  · simp only [move_sale, if_neg hAB, if_neg hcond]
    rw [updateDay_other _ _ _ _ _ _ (Or.inr hAB), updateDay_same]
    exact List.length_eraseIdx_add_one hi
  · simp only [move_sale, if_neg hAB, if_neg hcond]
    rw [updateDay_same]

/-- Witness for C7: moving the single ATL record `m` to FL. -/
theorem move_sale_success_spec_witness :
    ∃ r, (moveOneState "2025-06-07" Loc.ATL)[((1 : Int) - 1).toNat]? =
        some r ∧
      (move_sale moveOneState "2025-06-07" Loc.ATL Loc.FL 1).1 =
        Except.ok r ∧
      ((move_sale moveOneState "2025-06-07" Loc.ATL Loc.FL 1).2
          "2025-06-07" Loc.ATL).length + 1 =
        (moveOneState "2025-06-07" Loc.ATL).length ∧
      (move_sale moveOneState "2025-06-07" Loc.ATL Loc.FL 1).2
          "2025-06-07" Loc.FL =
        moveOneState "2025-06-07" Loc.FL ++ [r] :=
  move_sale_success_spec moveOneState "2025-06-07" Loc.ATL Loc.FL 1
    (by decide) (by decide) (by decide)

/-- Claim C9: on the first call for a night the phrase pool stores and
returns a permutation of the fixed 25-word vocabulary (`random.shuffle` of
a copy is modelled as the permutation-producing `shuffle` argument), and
every subsequent call for the same night, whatever its shuffle would do,
returns exactly the stored sequence and leaves the store unmodified. -/
theorem ensure_phrases_for_spec (shuffle : List String → List String)
    (pool : Phrases) (date_iso : String)
    (hperm : (shuffle DAILY_PHRASES).Perm DAILY_PHRASES)
    (hfresh : pool date_iso = none) :
    DAILY_PHRASES.length = 25 ∧
    ((ensure_phrases_for shuffle pool date_iso).1).Perm DAILY_PHRASES ∧
    (ensure_phrases_for shuffle pool date_iso).2 date_iso =
      some (ensure_phrases_for shuffle pool date_iso).1 ∧
    ∀ shuffle2, ensure_phrases_for shuffle2
        ((ensure_phrases_for shuffle pool date_iso).2) date_iso =
      ensure_phrases_for shuffle pool date_iso := by
  have hmain : ensure_phrases_for shuffle pool date_iso =
      (shuffle DAILY_PHRASES,
       fun k => if k = date_iso then some (shuffle DAILY_PHRASES)
                else pool k) := by
    simp only [ensure_phrases_for, hfresh]
  refine ⟨by decide, ?_, ?_, ?_⟩
  · rw [hmain]
    exact hperm
  · rw [hmain]
    simp
  · intro shuffle2
    rw [hmain]
    simp [ensure_phrases_for]

/-- Witness for C9: the first and second call for a fresh night, with the
identity permutation standing in for the shuffle. -/
theorem ensure_phrases_for_spec_witness :
    DAILY_PHRASES.length = 25 ∧
    ((ensure_phrases_for id emptyPhrases "2025-06-07").1).Perm
      DAILY_PHRASES ∧
    (ensure_phrases_for id emptyPhrases "2025-06-07").2 "2025-06-07" =
      some (ensure_phrases_for id emptyPhrases "2025-06-07").1 ∧
    ∀ shuffle2, ensure_phrases_for shuffle2
        ((ensure_phrases_for id emptyPhrases "2025-06-07").2) "2025-06-07" =
      ensure_phrases_for id emptyPhrases "2025-06-07" :=
  ensure_phrases_for_spec id emptyPhrases "2025-06-07"
    (List.Perm.refl _) rfl

end SkipBot
